import Mathlib

/-!
Verification of the Slattery Shanghai rummy server (a Node.js multiplayer card
game) against its natural-language specification.

The repository contains one main server file (src/server.js) and several
earlier or later variants of the same `Game` class (src/unnamed/part_000 ..
part_003).  The definitions below are shallow embeddings of the relevant
JavaScript functions.  Conventions used throughout:

* JS arrays used as stacks (the stock and the discard pile, where push/pop act
  on the last element) are represented as Lean lists whose HEAD is the top of
  the stack.  Player hands are represented with the same index order as the JS
  array (index 0 = JS index 0), `push` becomes `++ [c]`, `splice(i, 1)` becomes
  `List.eraseIdx i`, and `splice(i, 0, c)` becomes `List.insertIdx i c`.
* JS `Map` objects keyed by player name are association lists
  `List (String × PData)`; `Map.get` is `List.lookup` and an update of an
  existing key is `setPD` (which rewrites the matching entry in place).
* Fisher-Yates shuffling is a random permutation; functions that shuffle take
  the already-shuffled card list as an explicit argument, so every theorem
  quantifies over (or fixes) the permutation.
* A JS crash (reading a property of `undefined`, calling a missing method) is
  modelled by an `Option` result of `none`.  Reachable error returns of the
  form `{success: false, message}` are `ActionResult.failure`.
-/

namespace Shanghai

/-- Suits as enumerated in SUITS (src/server.js line 54). -/
inductive Suit where
  | hearts | diamonds | clubs | spades
deriving DecidableEq, Repr, BEq

/-- Ranks as enumerated in RANKS (src/server.js line 55): A, 2..10, J, Q, K. -/
inductive Rank where
  | ace | r2 | r3 | r4 | r5 | r6 | r7 | r8 | r9 | r10 | jack | queen | king
deriving DecidableEq, Repr, BEq

/-- Numeric value of a rank (RANK_VALUES, src/server.js lines 60-63; identical
to Card.getCardValue in part_001/part_003): A=1, J/Q/K=10, numbers face. -/
def rankValue : Rank → Nat
  | Rank.ace => 1
  | Rank.r2 => 2
  | Rank.r3 => 3
  | Rank.r4 => 4
  | Rank.r5 => 5
  | Rank.r6 => 6
  | Rank.r7 => 7
  | Rank.r8 => 8
  | Rank.r9 => 9
  | Rank.r10 => 10
  | Rank.jack => 10
  | Rank.queen => 10
  | Rank.king => 10

/-- Score value of a rank (RANK_SCORES, src/server.js lines 65-68; identical to
Card.getScoreValue in part_001/part_003): A=20, J/Q/K=10, numbers face. -/
def rankScore : Rank → Nat
  | Rank.ace => 20
  | Rank.r2 => 2
  | Rank.r3 => 3
  | Rank.r4 => 4
  | Rank.r5 => 5
  | Rank.r6 => 6
  | Rank.r7 => 7
  | Rank.r8 => 8
  | Rank.r9 => 9
  | Rank.r10 => 10
  | Rank.jack => 10
  | Rank.queen => 10
  | Rank.king => 10

/-- A card: suit and rank.  The JS Card's other fields (value, scoreValue,
display, color) are functions of suit and rank, computed once at construction;
we model them as the functions `Card.value` and `Card.scoreValue`.  The two
decks of the shoe contain two structurally equal copies of every card. -/
structure Card where
  suit : Suit
  rank : Rank
deriving DecidableEq, Repr, BEq

/-- Numeric value of a card (this.value = RANK_VALUES[rank]). -/
def Card.value (c : Card) : Nat := rankValue c.rank

/-- Score value of a card (this.scoreValue = RANK_SCORES[rank], and
getScoreValue() of the part_001/part_003 Card class). -/
def Card.scoreValue (c : Card) : Nat := rankScore c.rank

/-- Meld type tag: 'set' or 'run'. -/
inductive MeldType where
  | set | run
deriving DecidableEq, Repr, BEq

/-- A laid-down meld: a type tag and its card list (push order). -/
structure Meld where
  mtype : MeldType
  cards : List Card
deriving DecidableEq, Repr, BEq

/-- One entry of ROUND_REQUIREMENTS (src/server.js lines 70-78; identical
tables in part_000..part_003). -/
structure Req where
  sets : Nat
  runs : Nat
  minSetSize : Nat
  minRunSize : Nat
deriving DecidableEq, Repr

/-- ROUND_REQUIREMENTS: rounds 1..7. -/
def roundRequirements : List Req :=
  [⟨2, 0, 3, 0⟩, ⟨1, 1, 3, 4⟩, ⟨0, 2, 0, 4⟩, ⟨3, 0, 3, 0⟩,
   ⟨2, 1, 3, 4⟩, ⟨1, 2, 3, 4⟩, ⟨0, 3, 0, 4⟩]

/-- ROUND_REQUIREMENTS[currentRound - 1].  A round outside 1..7 would read
`undefined` in JS; theorems that need the table carry a 1..7 hypothesis. -/
def reqFor (round : Nat) : Req := roundRequirements.getD (round - 1) ⟨0, 0, 0, 0⟩

/-- Comparison used by validateMeld's `sort((a, b) => a.value - b.value)`. -/
def valueLE (a b : Card) : Prop := a.value ≤ b.value

instance : DecidableRel valueLE := fun a b => Nat.decLe a.value b.value

instance : IsTotal Card valueLE := ⟨fun a b => Nat.le_total a.value b.value⟩

instance : IsTrans Card valueLE := ⟨fun _ _ _ h1 h2 => Nat.le_trans h1 h2⟩

/-- Sort a card list ascending by numeric value (the `[...cards].sort` call in
validateMeld, src/server.js line 510). -/
def sortByValue (cards : List Card) : List Card := List.insertionSort valueLE cards

/-- The adjacency loop of validateMeld (src/server.js lines 511-513): every
consecutive pair of the (already sorted) values differs by exactly 1. -/
def ascendingByOne : List Nat → Bool
  | [] => true
  | [_] => true
  | a :: b :: rest => decide (b = a + 1) && ascendingByOne (b :: rest)

/-- Game.validateMeld (src/server.js lines 500-517; the versions in
part_000/part_001/part_003 lines 585-600 compute the same boolean). -/
def validateMeld (cards : List Card) (t : MeldType) : Bool :=
  match t with
  | MeldType.set =>
    if cards.length < 3 then false
    else
      match cards with
      | [] => false
      | c0 :: _ => cards.all (fun c => decide (c.rank = c0.rank))
  | MeldType.run =>
    if cards.length < 4 then false
    else
      match cards with
      | [] => false
      | c0 :: _ =>
        if cards.all (fun c => decide (c.suit = c0.suit)) then
          ascendingByOne ((sortByValue cards).map Card.value)
        else false

/-- The claim's wording for a valid set: at least 3 cards, every card's rank
equal to the first card's rank. -/
def setSpec (cards : List Card) : Prop :=
  match cards with
  | [] => False
  | c0 :: _ => 3 ≤ cards.length ∧ ∀ c ∈ cards, c.rank = c0.rank

/-- The claim's wording for a valid run: at least 4 cards, every card's suit
equal to the first card's suit, and the multiset of numeric values can be
arranged into a sequence in which each value is the predecessor plus one
(equivalently: sorted ascending, adjacent values differ by exactly 1). -/
def runSpec (cards : List Card) : Prop :=
  match cards with
  | [] => False
  | c0 :: _ =>
    4 ≤ cards.length ∧ (∀ c ∈ cards, c.suit = c0.suit) ∧
      ∃ l, (cards.map Card.value).Perm l ∧ List.Chain' (fun a b => b = a + 1) l

lemma ascendingByOne_iff_chain (l : List Nat) :
    ascendingByOne l = true ↔ List.Chain' (fun a b => b = a + 1) l := by
  induction l with
  | nil => simp [ascendingByOne]
  | cons a t ih =>
    cases t with
    | nil => simp [ascendingByOne]
    | cons b r =>
      simp only [ascendingByOne, Bool.and_eq_true, decide_eq_true_eq,
        List.chain'_cons] at *
      constructor
      · rintro ⟨h1, h2⟩
        exact ⟨h1, ih.mp h2⟩
      · rintro ⟨h1, h2⟩
        exact ⟨h1, ih.mpr h2⟩

lemma sortByValue_perm (cards : List Card) : (sortByValue cards).Perm cards :=
  List.perm_insertionSort valueLE cards

lemma sortByValue_values_sorted (cards : List Card) :
    List.Sorted (· ≤ ·) ((sortByValue cards).map Card.value) := by
  have h : List.Sorted valueLE (sortByValue cards) :=
    List.sorted_insertionSort valueLE cards
  exact List.Pairwise.map Card.value (fun _ _ hab => hab) h

lemma chain_succ_sorted {l : List Nat} (h : List.Chain' (fun a b => b = a + 1) l) :
    List.Sorted (· ≤ ·) l := by
  have h2 : List.Chain' (· < ·) l := by
    exact List.Chain'.imp (fun a b hab => by omega) h
  have h3 : List.Pairwise (· < ·) l := (List.chain'_iff_pairwise).mp h2
  exact h3.imp (fun hab => Nat.le_of_lt hab)

lemma chain_succ_nodup {l : List Nat} (h : List.Chain' (fun a b => b = a + 1) l) :
    l.Nodup := by
  have h2 : List.Chain' (· < ·) l := by
    exact List.Chain'.imp (fun a b hab => by omega) h
  have h3 : List.Pairwise (· < ·) l := (List.chain'_iff_pairwise).mp h2
  exact h3.imp (fun hab => Nat.ne_of_lt hab)

lemma validateMeld_set_iff (cards : List Card) :
    validateMeld cards MeldType.set = true ↔ setSpec cards := by
  cases cards with
  | nil => simp [validateMeld, setSpec]
  | cons c0 rest =>
    simp only [validateMeld, setSpec]
    by_cases hlen : (c0 :: rest).length < 3
    · simp only [if_pos hlen]
      constructor
      · intro h; exact absurd h (by simp)
      · rintro ⟨h3, _⟩; omega
    · simp only [if_neg hlen, List.all_eq_true, decide_eq_true_eq]
      constructor
      · intro h; exact ⟨by omega, h⟩
      · rintro ⟨_, h⟩; exact h

lemma validateMeld_run_iff (cards : List Card) :
    validateMeld cards MeldType.run = true ↔ runSpec cards := by
  cases cards with
  | nil => simp [validateMeld, runSpec]
  | cons c0 rest =>
    simp only [validateMeld, runSpec]
    by_cases hlen : (c0 :: rest).length < 4
    · simp only [if_pos hlen]
      constructor
      · intro h; exact absurd h (by simp)
      · rintro ⟨h4, _⟩; omega
    · simp only [if_neg hlen]
      by_cases hsuit : (c0 :: rest).all (fun c => decide (c.suit = c0.suit)) = true
      · simp only [if_pos hsuit]
        rw [ascendingByOne_iff_chain]
        constructor
        · intro hchain
          refine ⟨by omega, ?_, ((sortByValue (c0 :: rest)).map Card.value), ?_, hchain⟩
          · intro c hc
            have := (List.all_eq_true.mp hsuit) c hc
            exact of_decide_eq_true this
          · exact ((sortByValue_perm (c0 :: rest)).map Card.value).symm
        · rintro ⟨_, _, l, hperm, hchain⟩
          have hm : ((sortByValue (c0 :: rest)).map Card.value).Perm l := by
            exact ((sortByValue_perm (c0 :: rest)).map Card.value).trans hperm
          have heq : (sortByValue (c0 :: rest)).map Card.value = l :=
            List.eq_of_perm_of_sorted hm
              (sortByValue_values_sorted (c0 :: rest)) (chain_succ_sorted hchain)
          rw [heq]; exact hchain
      · simp only [if_neg hsuit]
        constructor
        · intro h; exact absurd h (by simp)
        · rintro ⟨_, hall, _⟩
          exact absurd (List.all_eq_true.mpr (fun c hc => decide_eq_true (hall c hc))) hsuit

/-- C3.  validateMeld(cards, 'set') is true iff cards has length ≥ 3 and every
card's rank equals the first card's rank; validateMeld(cards, 'run') is true
iff cards has length ≥ 4, all suits equal the first card's suit and the sorted
values ascend by exactly 1; and any repeated numeric value makes a run
invalid. -/
theorem validateMeld_spec (cards : List Card) :
    (validateMeld cards MeldType.set = true ↔ setSpec cards) ∧
    (validateMeld cards MeldType.run = true ↔ runSpec cards) ∧
    (¬ (cards.map Card.value).Nodup → validateMeld cards MeldType.run = false) := by
  refine ⟨validateMeld_set_iff cards, validateMeld_run_iff cards, ?_⟩
  intro hdup
  by_contra hne
  have hval : validateMeld cards MeldType.run = true := by
    cases h : validateMeld cards MeldType.run with
    | false => exact absurd h hne
    | true => rfl
  have hrs : runSpec cards := (validateMeld_run_iff cards).mp hval
  cases cards with
  | nil => exact hrs
  | cons c0 rest =>
    obtain ⟨_, _, l, hperm, hchain⟩ := hrs
    exact hdup (hperm.nodup_iff.mpr (chain_succ_nodup hchain))

/-- Witness for C3: four hearts containing the two-deck duplicate 7 of hearts
fail the run check (the duplicated value 7 breaks the adjacency chain). -/
theorem validateMeld_spec_witness :
    (¬ (([⟨Suit.hearts, Rank.r7⟩, ⟨Suit.hearts, Rank.r7⟩, ⟨Suit.hearts, Rank.r8⟩,
         ⟨Suit.hearts, Rank.r9⟩] : List Card).map Card.value).Nodup) ∧
    validateMeld [⟨Suit.hearts, Rank.r7⟩, ⟨Suit.hearts, Rank.r7⟩,
      ⟨Suit.hearts, Rank.r8⟩, ⟨Suit.hearts, Rank.r9⟩] MeldType.run = false :=
  ⟨by decide,
   (validateMeld_spec [⟨Suit.hearts, Rank.r7⟩, ⟨Suit.hearts, Rank.r7⟩,
      ⟨Suit.hearts, Rank.r8⟩, ⟨Suit.hearts, Rank.r9⟩]).2.2 (by decide)⟩

/-- Per-player round data.  server.js keeps one record per player
(initPlayerData, lines 290-299: hand, melds, buys, scores, goneDown);
part_001/part_003 keep the same data in four separate maps (playerHands,
playerMelds, playerBuys, playerScores) and have no goneDown flag — their
functions below simply never read or write `goneDown`. -/
structure PData where
  hand : List Card
  melds : List Meld
  buys : Nat
  scores : List Nat
  goneDown : Bool
deriving DecidableEq, Repr

/-- Fresh player data (initPlayerData / the per-round reset): empty hand and
melds, 3 buys, a 7-slot all-zero score array, not gone down. -/
def initPData : PData := ⟨[], [], 3, List.replicate 7 0, false⟩

/-- The buyPhase sub-state of server.js (line 272): active flag, card in
contention, and the requests Map in insertion order.  AI answers are inserted
when the window opens (startBuyPhase), human answers when their
submitBuyRequest message arrives. -/
structure BuyPhase where
  active : Bool
  card : Option Card
  requests : List (String × Bool)
deriving DecidableEq, Repr

/-- The association-list image of the player-data Map. -/
abbrev PDMap := List (String × PData)

/-- The Game entity state shared by all variants.  The stock and the discard
pile are stored top-first (JS push/pop act on the array end).  `turnState` is
the hasDrawn flag. -/
structure GameState where
  players : List String
  playerData : PDMap
  currentRound : Nat
  currentPlayerIndex : Nat
  stock : List Card
  discardPile : List Card
  turnState : Bool
  buyPhase : BuyPhase
deriving DecidableEq, Repr

/-- Map.set on an existing key: rewrite the matching entries in place. -/
def setPD (pd : PDMap) (p : String) (v : PData) : PDMap :=
  pd.map (fun e => if e.1 = p then (p, v) else e)

lemma lookup_setPD_self (pd : PDMap) (p : String) (v d : PData)
    (h : List.lookup p pd = some d) : List.lookup p (setPD pd p v) = some v := by
  induction pd with
  | nil => simp [List.lookup] at h
  | cons e rest ih =>
    obtain ⟨k, w⟩ := e
    by_cases he : k = p
    · subst he
      simp only [setPD, List.map_cons, eq_self_iff_true, if_true]
      simp [List.lookup]
    · have hne : (p == k) = false := by
        simp only [beq_eq_false_iff_ne, ne_eq]
        exact fun hc => he hc.symm
      simp only [List.lookup, hne] at h
      simp only [setPD, List.map_cons, if_neg he]
      simp only [List.lookup, hne]
      exact ih h

lemma lookup_setPD_ne (pd : PDMap) (p q : String) (v : PData)
    (h : q ≠ p) : List.lookup q (setPD pd p v) = List.lookup q pd := by
  induction pd with
  | nil => simp [setPD]
  | cons e rest ih =>
    obtain ⟨k, w⟩ := e
    by_cases he : k = p
    · subst he
      have hq : (q == k) = false := beq_eq_false_iff_ne.mpr h
      simp only [setPD, List.map_cons, if_pos rfl]
      simp only [List.lookup, hq]
      exact ih
    · simp only [setPD, List.map_cons, if_neg he]
      simp only [List.lookup]
      cases hqk : (q == k) with
      | true => rfl
      | false => exact ih

/-- Hand of a player, if their record exists. -/
def handOf? (s : GameState) (p : String) : Option (List Card) :=
  (List.lookup p s.playerData).map PData.hand

/-- Melds of a player, if their record exists. -/
def meldsOf? (s : GameState) (p : String) : Option (List Meld) :=
  (List.lookup p s.playerData).map PData.melds

/-- Remaining buys of a player, if their record exists. -/
def buysOf? (s : GameState) (p : String) : Option Nat :=
  (List.lookup p s.playerData).map PData.buys

/-- Score array of a player, if their record exists. -/
def scoresOf? (s : GameState) (p : String) : Option (List Nat) :=
  (List.lookup p s.playerData).map PData.scores

/-- getCurrentPlayer(): this.players[this.currentPlayerIndex]. -/
def currentPlayerOf (s : GameState) : Option String :=
  s.players.get? s.currentPlayerIndex

/-- A target meld reference (player name, meld index), if it exists. -/
def meldAt? (s : GameState) (p : String) (j : Nat) : Option Meld :=
  (meldsOf? s p).bind (fun ms => ms.get? j)

/-- Number of melds of the given type whose card count reaches the minimum
size (the filter-count in validatePlayerMeetsRoundRequirements,
src/unnamed/part_003 lines 461-467, and the inline gone-down check of
server.js makeMeld, lines 481-482). -/
def countMelds (melds : List Meld) (t : MeldType) (minSize : Nat) : Nat :=
  (melds.filter (fun m => decide (m.mtype = t) && decide (minSize ≤ m.cards.length))).length

/-- The requirement check shared by every variant: at least `req.sets` sets of
size ≥ minSetSize and at least `req.runs` runs of size ≥ minRunSize. -/
def meetsRequirements (melds : List Meld) (req : Req) : Bool :=
  decide (req.sets ≤ countMelds melds MeldType.set req.minSetSize) &&
    decide (req.runs ≤ countMelds melds MeldType.run req.minRunSize)

/-- Game.validatePlayerMeetsRoundRequirements (src/unnamed/part_003 lines
454-472; part_001 lines 730-769): scan the player's melds against
ROUND_REQUIREMENTS[currentRound - 1]. -/
def p3_validateReq (s : GameState) (p : String) : Bool :=
  meetsRequirements (((List.lookup p s.playerData).map PData.melds).getD [])
    (reqFor s.currentRound)

/-- All card occurrences of a state: every hand, every laid-down meld, the
discard pile and the stock. -/
def meldCards (ms : List Meld) : List Card :=
  ms.foldr (fun m acc => m.cards ++ acc) []

/-- Multiset (as a list) of all cards present in the state. -/
def stateCards (s : GameState) : List Card :=
  s.playerData.foldr (fun e acc => e.2.hand ++ meldCards e.2.melds ++ acc)
    (s.discardPile ++ s.stock)

/-- Action outcome: a structured failure message or success (with the
roundEnded flag of the JS result object). -/
inductive ActionResult where
  | failure (msg : String)
  | success (roundEnded : Bool)
deriving DecidableEq, Repr

/-- Result of endRound: the game ended with final results, or play continues
with the next round number. -/
structure FinalResults where
  winner : String
  winnerScore : Nat
  finalStandings : List (String × Nat)
deriving DecidableEq, Repr

inductive RoundResult where
  | gameEnded (results : FinalResults)
  | newRound (n : Nat)
deriving DecidableEq, Repr

/-- Placeholder for the JS `undefined` read `hand[i]`; every use below is
guarded so that it is never actually produced. -/
def defaultCard : Card := ⟨Suit.hearts, Rank.ace⟩

/-- Descending sort of the index list (`indices.sort((a, b) => b - a)` before
the splice loop of makeMeld). -/
def sortNatDesc (l : List Nat) : List Nat :=
  List.insertionSort (fun a b : Nat => b ≤ a) l

/-- Game.canLayOffCard (src/unnamed/part_003 lines 443-452; part_001 lines
634-651): a card extends a set when it matches every card's rank, and a run
when it matches the suit and its value is one below the minimum or one above
the maximum of the run's values.  A meld with an empty card list would crash
in JS reading meld.cards[0]; real melds always hold at least 3 cards, and we
return false for that unreachable shape. -/
def canLayOffCard (card : Card) (meld : Meld) : Bool :=
  match meld.mtype with
  | MeldType.set => meld.cards.all (fun mc => decide (mc.rank = card.rank))
  | MeldType.run =>
    match meld.cards with
    | [] => false
    | c0 :: _ =>
      if card.suit = c0.suit then
        match List.insertionSort (· ≤ ·) (meld.cards.map Card.value) with
        | [] => false
        | v0 :: vrest =>
          decide (card.value = v0 - 1) || decide (card.value = vrest.getLastD v0 + 1)
      else false

/-- The claim's wording for a legal lay-off: match the set's rank, or match
the run's suit (the suit of its cards, represented by the first) and extend
one end of its contiguous value range by exactly one: the card's value is one
below the minimum value or one above the maximum value of the run. -/
def extendsMeldSpec (card : Card) (meld : Meld) : Prop :=
  match meld.mtype with
  | MeldType.set => ∀ mc ∈ meld.cards, mc.rank = card.rank
  | MeldType.run =>
    (∃ c0, meld.cards.head? = some c0 ∧ card.suit = c0.suit) ∧
    ((∃ m ∈ meld.cards.map Card.value, (∀ v ∈ meld.cards.map Card.value, m ≤ v) ∧
        card.value + 1 = m) ∨
     (∃ m ∈ meld.cards.map Card.value, (∀ v ∈ meld.cards.map Card.value, v ≤ m) ∧
        card.value = m + 1))

/-- The part_003 round reset loop inside dealRound (lines 347-351): fresh hand,
melds and buys for every player; scores are kept. -/
def p3_resetForRound : List String → PDMap → Option PDMap
  | [], pd => some pd
  | p :: rest, pd =>
    match List.lookup p pd with
    | none => none
    | some d => p3_resetForRound rest (setPD pd p { d with hand := [], melds := [], buys := 3 })

/-- One pass of the interleaved dealing loop (part_003 line 355): each player
in order receives the top card of the stock. -/
def p3_dealOneEach : List String → PDMap → List Card → Option (PDMap × List Card)
  | [], pd, stock => some (pd, stock)
  | p :: rest, pd, stock =>
    match List.lookup p pd with
    | none => none
    | some d =>
      match stock with
      | [] => none
      | c :: cs => p3_dealOneEach rest (setPD pd p { d with hand := d.hand ++ [c] }) cs

/-- The outer dealing loop (part_003 lines 353-356): cardsPerPlayer passes of
one-card-each. -/
def p3_dealInterleaved : Nat → List String → PDMap → List Card → Option (PDMap × List Card)
  | 0, _, pd, stock => some (pd, stock)
  | k + 1, names, pd, stock =>
    match p3_dealOneEach names pd stock with
    | none => none
    | some (pd1, st1) => p3_dealInterleaved k names pd1 st1

/-- Game.dealRound (src/unnamed/part_003 lines 344-361): reset per-round data,
deal 10 + currentRound cards to each player one at a time, flip one starter
card onto the emptied discard pile, set the starting player and clear the
hasDrawn flag.  `fresh` is the freshly shuffled 104-card stock (new Deck()). -/
def p3_dealRound (s : GameState) (fresh : List Card) : Option GameState :=
  match p3_resetForRound s.players s.playerData with
  | none => none
  | some pd0 =>
    match p3_dealInterleaved (10 + s.currentRound) s.players pd0 fresh with
    | none => none
    | some (pd1, st1) =>
      match st1 with
      | [] => none
      | c :: rest =>
        some { s with
               playerData := pd1
               stock := rest
               discardPile := [c]
               currentPlayerIndex := (s.currentRound - 1) % s.players.length
               turnState := false }

/-- The scoring forEach of part_003's endRound (lines 634-642): the winner
records 0, everyone else records the sum of getScoreValue over their remaining
hand, written at index currentRound - 1 of their score array. -/
def p3_scoreAll : List String → String → Nat → PDMap → Option PDMap
  | [], _, _, pd => some pd
  | p :: rest, winner, round, pd =>
    match List.lookup p pd with
    | none => none
    | some d =>
      let sc := if p = winner then 0 else (d.hand.map Card.scoreValue).sum
      p3_scoreAll rest winner round (setPD pd p { d with scores := d.scores.set (round - 1) sc })

/-- The total-building forEach of endGame (src/server.js lines 637-641;
part_003 lines 655-658): for each player, the sum of their score array. -/
def buildTotals : List String → PDMap → Option (List (String × Nat))
  | [], _ => some []
  | p :: rest, pd =>
    match List.lookup p pd with
    | none => none
    | some d =>
      match buildTotals rest pd with
      | none => none
      | some t => some ((p, d.scores.sum) :: t)

/-- Comparator of the final sort (`.sort((a, b) => a[1] - b[1])`). -/
def totalLE (a b : String × Nat) : Prop := a.2 ≤ b.2

instance : DecidableRel totalLE := fun a b => Nat.decLe a.2 b.2

instance : IsTotal (String × Nat) totalLE := ⟨fun a b => Nat.le_total a.2 b.2⟩

instance : IsTrans (String × Nat) totalLE := ⟨fun _ _ _ h1 h2 => Nat.le_trans h1 h2⟩

/-- Game.endGame (src/server.js lines 634-651 and src/unnamed/part_003 lines
653-662, identical logic): build each player's total as the sum of their
per-round score entries, sort ascending by total, and declare the first entry
the winner.  An empty roster would read sorted[0] of an empty array
(`undefined`), modelled as none. -/
def endGame (s : GameState) : Option FinalResults :=
  match buildTotals s.players s.playerData with
  | none => none
  | some totals =>
    match List.insertionSort totalLE totals with
    | [] => none
    | w :: rest => some ⟨w.1, w.2, w :: rest⟩

/-- Game.endRound (src/unnamed/part_003 lines 633-651; part_001 lines 918-947
is the same with logging): record the round scores, then either finish the
game (round ≥ 7) or advance the round counter and redeal.  `fresh` is the next
round's shuffled stock. -/
def p3_endRound (s : GameState) (winner : String) (fresh : List Card) :
    Option (RoundResult × GameState) :=
  match p3_scoreAll s.players winner s.currentRound s.playerData with
  | none => none
  | some pd1 =>
    let s1 := { s with playerData := pd1 }
    if 7 ≤ s.currentRound then
      match endGame s1 with
      | none => none
      | some results => some (RoundResult.gameEnded results, s1)
    else
      let s2 := { s1 with currentRound := s.currentRound + 1 }
      match p3_dealRound s2 fresh with
      | none => none
      | some s3 => some (RoundResult.newRound (s.currentRound + 1), s3)

/-- Game.makeMeld (src/unnamed/part_003 lines 602-631).  The cards are read by
index with no range or distinctness check (`cardIndices.map(i => hand[i])`);
an out-of-range index would flow `undefined` into validateMeld and throw, so
the embedding returns none there.  On success the indices are removed in
descending order and the meld is appended.  When the hand empties without the
round requirements being met the function returns a failure WITHOUT reverting
(the source's own comment: "This case is tricky, might need to revert the
meld"). -/
def p3_makeMeld (s : GameState) (player : String) (cardIndices : List Nat)
    (meldType : MeldType) (fresh : List Card) : Option (ActionResult × GameState) :=
  if currentPlayerOf s ≠ some player then
    some (ActionResult.failure "Not your turn", s)
  else
    match List.lookup player s.playerData with
    | none => none
    | some d =>
      if cardIndices.all (fun i => decide (i < d.hand.length)) then
        let cards := cardIndices.map (fun i => d.hand.getD i defaultCard)
        if validateMeld cards meldType = false then
          some (ActionResult.failure "Invalid meld", s)
        else
          let hand2 := (sortNatDesc cardIndices).foldl (fun h i => h.eraseIdx i) d.hand
          let d2 := { d with hand := hand2, melds := d.melds ++ [⟨meldType, cards⟩] }
          let s2 := { s with playerData := setPD s.playerData player d2 }
          if hand2.isEmpty then
            if p3_validateReq s2 player = false then
              some (ActionResult.failure "Melded all cards but round requirements are not met", s2)
            else
              match p3_endRound s2 player fresh with
              | none => none
              | some (_, s3) => some (ActionResult.success true, s3)
          else some (ActionResult.success false, s2)
      else none

/-- Game.layOffCard (src/unnamed/part_003 lines 392-441): requires the
caller's turn, then the contract pre-check (the NEW server-side validation),
then a valid hand index, a valid target meld and a legal extension; on success
the card moves from the hand to the target meld; if that empties the hand the
go-out re-check runs and on failure the card is spliced back at its original
index and popped off the meld before the failure is returned. -/
def p3_layOffCard (s : GameState) (player : String) (cardIndex : Nat)
    (target : String) (meldIndex : Nat) (fresh : List Card) :
    Option (ActionResult × GameState) :=
  if currentPlayerOf s ≠ some player then
    some (ActionResult.failure "Not your turn", s)
  else if p3_validateReq s player = false then
    some (ActionResult.failure "You must meet your round requirements before laying off cards", s)
  else
    match List.lookup player s.playerData with
    | none => none
    | some d =>
      match d.hand.get? cardIndex with
      | none => some (ActionResult.failure "Invalid card", s)
      | some card =>
        match List.lookup target s.playerData with
        | none => some (ActionResult.failure "Invalid target meld", s)
        | some td =>
          match td.melds.get? meldIndex with
          | none => some (ActionResult.failure "Invalid target meld", s)
          | some meld =>
            if canLayOffCard card meld = false then
              some (ActionResult.failure "Card cannot be added to that meld", s)
            else
              let pdA := setPD s.playerData player { d with hand := d.hand.eraseIdx cardIndex }
              match List.lookup target pdA with
              | none => none
              | some td2 =>
                let meld2 := { meld with cards := meld.cards ++ [card] }
                let pdB := setPD pdA target { td2 with melds := td2.melds.set meldIndex meld2 }
                let s2 := { s with playerData := pdB }
                if (d.hand.eraseIdx cardIndex).isEmpty then
                  if p3_validateReq s2 player = false then
                    match List.lookup player pdB with
                    | none => none
                    | some d3 =>
                      let pdC := setPD pdB player
                        { d3 with hand := d3.hand.insertIdx cardIndex card }
                      match List.lookup target pdC with
                      | none => none
                      | some td4 =>
                        match td4.melds.get? meldIndex with
                        | none => none
                        | some meld4 =>
                          let pdD := setPD pdC target
                            { td4 with melds :=
                                td4.melds.set meldIndex { meld4 with cards := meld4.cards.dropLast } }
                          some (ActionResult.failure "Cannot go out: round requirements not met",
                            { s2 with playerData := pdD })
                  else
                    match p3_endRound s2 player fresh with
                    | none => none
                    | some (_, s3) => some (ActionResult.success true, s3)
                else some (ActionResult.success false, s2)

/-- The per-player reset-and-deal loop of server.js dealRound (lines 341-353):
for each player in order, replace their round data and push cardsPerPlayer
cards popped off the stock (so each player receives a consecutive chunk).
Dealing from an exhausted stock would push `undefined` cards; modelled as
none. -/
def server_dealHands : List String → Nat → PDMap → List Card → Option (PDMap × List Card)
  | [], _, pd, stock => some (pd, stock)
  | p :: rest, k, pd, stock =>
    match List.lookup p pd with
    | none => none
    | some d =>
      if k ≤ stock.length then
        server_dealHands rest k
          (setPD pd p { d with hand := stock.take k, melds := [], buys := 3, goneDown := false })
          (stock.drop k)
      else none

/-- Game.dealRound (src/server.js lines 335-358): build a fresh shuffled
104-card stock (the `fresh` argument), flip its top card as the discard
starter, deal 10 + currentRound cards to each player, and set the starting
player (player 0 in round 1, otherwise rotated by round number). -/
def server_dealRound (s : GameState) (fresh : List Card) : Option GameState :=
  match fresh with
  | [] => none
  | c :: rest =>
    match server_dealHands s.players (10 + s.currentRound) s.playerData rest with
    | none => none
    | some (pd1, st1) =>
      some { s with
             playerData := pd1
             stock := st1
             discardPile := [c]
             currentPlayerIndex :=
               if s.currentRound = 1 then 0 else (s.currentRound - 1) % s.players.length
             turnState := false }

/-- Card.getScoreValue as called by server.js endRound (line 618).  The
server.js Card class does not define this method: its methods were removed in
favour of the precomputed `scoreValue` field (the comment at line 93 reads
"Removed redundant methods since values are pre-computed").  Invoking the
missing method throws a TypeError, modelled as none. -/
def server_cardGetScoreValue (_ : Card) : Option Nat := none

/-- The hand-score reduce of server.js endRound (line 618):
`hand.reduce((sum, card) => sum + card.getScoreValue(), 0)`.  Any call on a
nonempty hand hits the missing method. -/
def server_handScore : List Card → Option Nat
  | [] => some 0
  | c :: rest =>
    match server_cardGetScoreValue c with
    | none => none
    | some v =>
      match server_handScore rest with
      | none => none
      | some r => some (r + v)

/-- The scoring forEach of server.js endRound (lines 613-622): 0 for the
winner, the reduce above for everyone else. -/
def server_scoreAll : List String → String → Nat → PDMap → Option PDMap
  | [], _, _, pd => some pd
  | p :: rest, winner, round, pd =>
    match List.lookup p pd with
    | none => none
    | some d =>
      match (if p = winner then some 0 else server_handScore d.hand) with
      | none => none
      | some sc =>
        server_scoreAll rest winner round (setPD pd p { d with scores := d.scores.set (round - 1) sc })

/-- Game.endRound of server.js (lines 611-631): record scores (crashing on any
non-winner that still holds cards, see server_cardGetScoreValue), then end the
game after round 7 or redeal. -/
def server_endRound (s : GameState) (winner : String) (fresh : List Card) :
    Option (RoundResult × GameState) :=
  match server_scoreAll s.players winner s.currentRound s.playerData with
  | none => none
  | some pd1 =>
    let s1 := { s with playerData := pd1 }
    if 7 ≤ s.currentRound then
      match endGame s1 with
      | none => none
      | some results => some (RoundResult.gameEnded results, s1)
    else
      let s2 := { s1 with currentRound := s.currentRound + 1 }
      match server_dealRound s2 fresh with
      | none => none
      | some s3 => some (RoundResult.newRound (s.currentRound + 1), s3)

/-- nextTurn (src/server.js lines 366-373): advance the player index with
wrap-around and clear the hasDrawn flag. -/
def server_nextTurn (s : GameState) : GameState :=
  { s with currentPlayerIndex := (s.currentPlayerIndex + 1) % s.players.length
           turnState := false }

/-- endBuyPhase (src/server.js lines 604-608): clear the buy sub-state and
advance the turn. -/
def server_endBuyPhase (s : GameState) : GameState :=
  server_nextTurn { s with buyPhase := { active := false, card := none, requests := [] } }

/-- The eligible-buyer filter of startBuyPhase (src/server.js lines 551-554):
players other than the current player with buys remaining.  Reading the buys
of a missing record would crash, hence the Option. -/
def eligibleBuyers : List String → GameState → Option (List String)
  | [], _ => some []
  | p :: rest, s =>
    match List.lookup p s.playerData with
    | none => none
    | some d =>
      match eligibleBuyers rest s with
      | none => none
      | some l =>
        some (if some p ≠ currentPlayerOf s ∧ 0 < d.buys then p :: l else l)

/-- startBuyPhase (src/server.js lines 547-580): open the buy window for the
discarded card with an empty request map; with no eligible buyers the window
closes immediately (endBuyPhase).  The AI seeding and the human notification
are transport effects: we model rooms of human participants, whose responses
arrive in the requests list before processBuyPhase runs. -/
def server_startBuyPhase (s : GameState) (card : Card) : Option GameState :=
  let s1 := { s with buyPhase := { active := true, card := some card, requests := [] } }
  match eligibleBuyers s1.players s1 with
  | none => none
  | some buyers =>
    if buyers.isEmpty then some (server_endBuyPhase s1) else some s1

/-- processBuyPhase (src/server.js lines 583-601): take the requesters in
request-map insertion order; the first one receives the top discard plus one
card dealt off the stock and loses a buy; then endBuyPhase runs either way.
The returned Option String is the buyer announced in the broadcast.  Popping
the discard or dealing from an empty pile/stock would produce undefined
cards, modelled as none. -/
def server_processBuyPhase (s : GameState) : Option (Option String × GameState) :=
  match (s.buyPhase.requests.filter (fun e => e.2)).map (fun e => e.1) with
  | [] => some (none, server_endBuyPhase s)
  | buyer :: _ =>
    match List.lookup buyer s.playerData with
    | none => none
    | some d =>
      match s.discardPile, s.stock with
      | top :: rest, c :: cs =>
        let s1 := { s with
                    playerData := setPD s.playerData buyer
                      { d with hand := d.hand ++ [top, c], buys := d.buys - 1 }
                    discardPile := rest
                    stock := cs }
        some (some buyer, server_endBuyPhase s1)
      | _, _ => none

/-- Game.discardCard of server.js (lines 520-544): requires the caller's turn
and hasDrawn; removes the indexed card and pushes it on the discard pile.  The
round ends only when the hand is empty AND the goneDown flag is set; there is
no requirement re-check and no rollback in this variant — an empty hand
without goneDown falls through to the buy phase as a SUCCESS. -/
def server_discardCard (s : GameState) (player : String) (index : Nat)
    (fresh : List Card) : Option (ActionResult × GameState) :=
  if currentPlayerOf s ≠ some player ∨ s.turnState = false then
    some (ActionResult.failure "Cannot discard", s)
  else
    match List.lookup player s.playerData with
    | none => none
    | some d =>
      match d.hand.get? index with
      | none => some (ActionResult.failure "Invalid card", s)
      | some card =>
        let s2 := { s with
                    playerData := setPD s.playerData player { d with hand := d.hand.eraseIdx index }
                    discardPile := card :: s.discardPile }
        if (d.hand.eraseIdx index).isEmpty ∧ d.goneDown then
          match server_endRound s2 player fresh with
          | none => none
          | some (_, s3) => some (ActionResult.success true, s3)
        else
          match server_startBuyPhase s2 card with
          | none => none
          | some s3 => some (ActionResult.success false, s3)

/-- Game.drawCard of server.js (lines 425-444).  With an empty stock the top
discard is popped FIRST; if the remaining pile is empty the reset fails and
the failure return leaves the discard pile without its popped top card (the
popped card is dropped on the floor).  Otherwise the rest of the pile becomes
the reshuffled stock (`shuffle` is the permutation chosen by Deck.shuffle) and
the pile keeps only the old top.  Then one card is dealt to the hand. -/
def server_drawCard (s : GameState) (player : String)
    (shuffle : List Card → List Card) : Option (ActionResult × GameState) :=
  if currentPlayerOf s ≠ some player ∨ s.turnState = true then
    some (ActionResult.failure "Cannot draw", s)
  else
    match (if s.stock.isEmpty then
             match s.discardPile with
             | [] => Sum.inl ({ s with discardPile := [] } : GameState)
             | [_top] => Sum.inl { s with discardPile := ([] : List Card) }
             | top :: rest => Sum.inr { s with stock := shuffle rest, discardPile := [top] }
           else Sum.inr s) with
    | Sum.inl sfail => some (ActionResult.failure "No cards available", sfail)
    | Sum.inr s1 =>
      match s1.stock with
      | [] => none
      | c :: cs =>
        match List.lookup player s1.playerData with
        | none => none
        | some d =>
          some (ActionResult.success false,
            { s1 with
              playerData := setPD s1.playerData player { d with hand := d.hand ++ [c] }
              stock := cs
              turnState := true })

/-- Game.makeMeld of server.js (lines 462-497): turn check, unguarded indexed
reads (out-of-range indices would crash in validateMeld: none), validate,
remove the indices in descending order, append the meld, latch the goneDown
flag when the cumulative melds first satisfy ROUND_REQUIREMENTS, and end the
round only when the hand emptied AND goneDown is set.  Duplicate indices are
never rejected: the same hand slot is read several times while distinct cards
are spliced out. -/
def server_makeMeld (s : GameState) (player : String) (cardIndices : List Nat)
    (meldType : MeldType) (fresh : List Card) : Option (ActionResult × GameState) :=
  if currentPlayerOf s ≠ some player then
    some (ActionResult.failure "Not your turn", s)
  else
    match List.lookup player s.playerData with
    | none => none
    | some d =>
      if cardIndices.all (fun i => decide (i < d.hand.length)) then
        let cards := cardIndices.map (fun i => d.hand.getD i defaultCard)
        if validateMeld cards meldType = false then
          some (ActionResult.failure "Invalid meld", s)
        else
          let hand2 := (sortNatDesc cardIndices).foldl (fun h i => h.eraseIdx i) d.hand
          let melds2 := d.melds ++ [⟨meldType, cards⟩]
          let gone2 :=
            if d.goneDown then true
            else meetsRequirements melds2 (reqFor s.currentRound)
          let s2 := { s with
                      playerData := setPD s.playerData player
                        { d with hand := hand2, melds := melds2, goneDown := gone2 } }
          if hand2.isEmpty ∧ gone2 = true then
            match server_endRound s2 player fresh with
            | none => none
            | some (_, s3) => some (ActionResult.success true, s3)
          else some (ActionResult.success false, s2)
      else none

/-- Shared small-scenario discard starter. -/
def kingH : Card := ⟨Suit.hearts, Rank.king⟩

/-- The single hand card of the C1 scenario. -/
def cardC1 : Card := ⟨Suit.clubs, Rank.r5⟩

/-- Round-1 state in which the active player A has drawn, holds one card, and
has laid no melds (so the round-1 contract of 2 sets is unmet). -/
def stateC1 : GameState :=
  { players := ["A", "B"]
    playerData :=
      [("A", { hand := [cardC1], melds := [], buys := 3,
               scores := List.replicate 7 0, goneDown := false }),
       ("B", initPData)]
    currentRound := 1
    currentPlayerIndex := 0
    stock := [⟨Suit.spades, Rank.r9⟩]
    discardPile := [kingH]
    turnState := true
    buyPhase := ⟨false, none, []⟩ }

/-- Round-1 state in which the active player A has drawn and holds exactly the
three sevens of a shape-valid set, with no melds laid yet. -/
def stateC4 : GameState :=
  { players := ["A", "B"]
    playerData :=
      [("A", { initPData with
               hand := [⟨Suit.hearts, Rank.r7⟩, ⟨Suit.diamonds, Rank.r7⟩,
                        ⟨Suit.clubs, Rank.r7⟩] }),
       ("B", initPData)]
    currentRound := 1
    currentPlayerIndex := 0
    stock := [⟨Suit.spades, Rank.r9⟩]
    discardPile := [kingH]
    turnState := true
    buyPhase := ⟨false, none, []⟩ }

/-- The lone discard-pile card of the C5 scenario. -/
def cardC5 : Card := ⟨Suit.diamonds, Rank.r4⟩

/-- State with an empty stock and a one-card discard pile; the active player A
has not drawn yet. -/
def stateC5 : GameState :=
  { players := ["A", "B"]
    playerData :=
      [("A", { initPData with hand := [⟨Suit.clubs, Rank.r2⟩, ⟨Suit.clubs, Rank.r9⟩] }),
       ("B", initPData)]
    currentRound := 1
    currentPlayerIndex := 0
    stock := []
    discardPile := [cardC5]
    turnState := false
    buyPhase := ⟨false, none, []⟩ }

/-- SUITS in source order. -/
def suitsList : List Suit := [Suit.hearts, Suit.diamonds, Suit.clubs, Suit.spades]

/-- RANKS in source order. -/
def ranksList : List Rank :=
  [Rank.ace, Rank.r2, Rank.r3, Rank.r4, Rank.r5, Rank.r6, Rank.r7, Rank.r8,
   Rank.r9, Rank.r10, Rank.jack, Rank.queen, Rank.king]

/-- One 52-card deck in Deck.initialize enumeration order. -/
def oneDeck : List Card :=
  suitsList.foldr (fun st acc => (ranksList.map (fun rk => (⟨st, rk⟩ : Card))) ++ acc) []

/-- The 104-card two-deck shoe; used as one concrete outcome of the shuffle. -/
def twoDecks : List Card := oneDeck ++ oneDeck

/-- A two-player lobby state about to receive the round-1 deal. -/
def stateC2init : GameState :=
  { players := ["A", "B"]
    playerData := [("A", initPData), ("B", initPData)]
    currentRound := 1
    currentPlayerIndex := 0
    stock := []
    discardPile := []
    turnState := false
    buyPhase := ⟨false, none, []⟩ }

/-- A ten-player lobby state about to receive the round-1 deal: 1 + 10 × 11
cards would be needed, more than the 104 available. -/
def stateC7bad : GameState :=
  { players := ["P1", "P2", "P3", "P4", "P5", "P6", "P7", "P8", "P9", "P10"]
    playerData :=
      [("P1", initPData), ("P2", initPData), ("P3", initPData), ("P4", initPData),
       ("P5", initPData), ("P6", initPData), ("P7", initPData), ("P8", initPData),
       ("P9", initPData), ("P10", initPData)]
    currentRound := 1
    currentPlayerIndex := 0
    stock := []
    discardPile := []
    turnState := false
    buyPhase := ⟨false, none, []⟩ }

/-- C1.  In src/server.js the go-out guard of discardCard is the goneDown
flag alone and there is no rollback: in stateC1 the active player A has drawn,
their cumulative melds do NOT satisfy round 1's contract
(p3_validateReq = false), yet discarding the last hand card RETURNS SUCCESS,
leaves the hand empty, keeps the discarded five of clubs on top of the pile,
and the round does not end (roundEnded = false) — the claimed failure-and-
rollback behaviour of the part_003/part_001 variant (lines 553-583 there) is
absent from this variant. -/
theorem server_discard_goOut_bypass :
    ((server_discardCard stateC1 "A" 0 []).map
        (fun r => (r.1, handOf? r.2 "A", r.2.discardPile))) =
      some (ActionResult.success false, some [], [cardC1, kingH]) ∧
    p3_validateReq stateC1 "A" = false ∧
    handOf? stateC1 "A" = some [cardC1] ∧ stateC1.discardPile = [kingH] := by
  exact ⟨rfl, rfl, rfl, rfl⟩

/-- C4.  part_003's makeMeld (lines 620-625) rejects the hand-emptying meld of
a player who does not meet the round contract but does NOT revert it: the
failure return comes back with the hand still empty and the new set still in
the player's meld list (the source comments "might need to revert the
meld"). -/
theorem makeMeld_emptyHand_failure_not_reverted :
    ((p3_makeMeld stateC4 "A" [0, 1, 2] MeldType.set []).map
        (fun r => (r.1, handOf? r.2 "A", meldsOf? r.2 "A"))) =
      some (ActionResult.failure "Melded all cards but round requirements are not met",
        some [],
        some [⟨MeldType.set, [⟨Suit.hearts, Rank.r7⟩, ⟨Suit.diamonds, Rank.r7⟩,
                              ⟨Suit.clubs, Rank.r7⟩]⟩]) ∧
    meldsOf? stateC4 "A" = some [] ∧
    handOf? stateC4 "A" = some [⟨Suit.hearts, Rank.r7⟩, ⟨Suit.diamonds, Rank.r7⟩,
                                ⟨Suit.clubs, Rank.r7⟩] := by
  exact ⟨rfl, rfl, rfl⟩

/-- C5.  src/server.js drawCard (lines 430-436) pops the discard top BEFORE
attempting the stock reset; when the stock is empty and the pile holds exactly
one card the reset fails, the failure is returned, and the popped card is
dropped: the pile comes back EMPTY instead of unchanged, losing the four of
diamonds. -/
theorem server_draw_recycleFailure_loses_card :
    ((server_drawCard stateC5 "A" id).map
        (fun r => (r.1, r.2.discardPile, r.2.stock, handOf? r.2 "A"))) =
      some (ActionResult.failure "No cards available", [], [],
        some [⟨Suit.clubs, Rank.r2⟩, ⟨Suit.clubs, Rank.r9⟩]) ∧
    stateC5.discardPile = [cardC5] ∧ stateC5.stock = [] := by
  exact ⟨rfl, rfl, rfl⟩

/-- C2.  From a freshly dealt two-player round 1 (a concrete shuffle), the
active player calls makeMeld with the duplicate index list [0,0,0]: no variant
rejects duplicate indices, so the call succeeds, the meld receives three
copies of the two of hearts while the three and the four of hearts are spliced
out of the hand.  The total card multiset changes: the two of hearts occurs 4
times afterwards (two-deck total: 2) and the three of hearts only once —
conservation of the 104 dealt cards is broken. -/
theorem makeMeld_duplicate_indices_break_conservation :
    ((server_dealRound stateC2init twoDecks).map
        (fun s0 => ((stateCards s0).count ⟨Suit.hearts, Rank.r2⟩,
                    (stateCards s0).count ⟨Suit.hearts, Rank.r3⟩,
                    (stateCards s0).length))) = some (2, 2, 104) ∧
    (((server_dealRound stateC2init twoDecks).bind
        (fun s0 => server_makeMeld s0 "A" [0, 0, 0] MeldType.set [])).map
        (fun r => ((stateCards r.2).count ⟨Suit.hearts, Rank.r2⟩,
                   (stateCards r.2).count ⟨Suit.hearts, Rank.r3⟩,
                   r.1))) = some (4, 1, ActionResult.success false) := by
  exact ⟨rfl, rfl⟩

/-- C7 counterexample.  dealRound does not exist for every roster: with ten
players in round 1 it would need 1 + 10 × (10 + 1) = 111 of the 104 cards;
in JS the deck pops undefined into hands, modelled as none.  The claimed
post-deal state (full hands summing with stock and discard to 104) does not
exist for this roster. -/
theorem dealRound_large_roster_fails :
    server_dealRound stateC7bad twoDecks = none ∧
    twoDecks.length = 104 ∧ stateC7bad.players.length = 10 ∧
    stateC7bad.currentRound = 1 := by
  exact ⟨rfl, rfl, rfl, rfl⟩

lemma p3_scoreAll_lookup_notmem :
    ∀ (names : List String) (winner : String) (round : Nat) (pd pd2 : PDMap) (q : String),
      q ∉ names → p3_scoreAll names winner round pd = some pd2 →
      List.lookup q pd2 = List.lookup q pd := by
  intro names
  induction names with
  | nil =>
    intro winner round pd pd2 q _ h
    simp only [p3_scoreAll] at h
    cases h; rfl
  | cons p0 rest ih =>
    intro winner round pd pd2 q hq h
    simp only [p3_scoreAll] at h
    cases hl : List.lookup p0 pd with
    | none => rw [hl] at h; cases h
    | some d0 =>
      rw [hl] at h
      have hqne : q ≠ p0 := fun hc => hq (hc ▸ List.mem_cons_self p0 rest)
      have hqrest : q ∉ rest := fun hc => hq (List.mem_cons_of_mem p0 hc)
      rw [ih winner round _ pd2 q hqrest h]
      exact lookup_setPD_ne _ p0 q _ hqne

/-- The per-player round score recorded by endRound: 0 for the winner, the
hand's score-value sum for everyone else. -/
def roundScore (d : PData) (winner p : String) : Nat :=
  if p = winner then 0 else (d.hand.map Card.scoreValue).sum

lemma p3_scoreAll_lookup :
    ∀ (names : List String) (winner : String) (round : Nat) (pd pd2 : PDMap)
      (p : String) (d : PData),
      names.Nodup → p ∈ names → List.lookup p pd = some d →
      p3_scoreAll names winner round pd = some pd2 →
      List.lookup p pd2 = some { d with scores := d.scores.set (round - 1) (roundScore d winner p) } := by
  intro names
  induction names with
  | nil => intro _ _ _ _ _ _ _ hmem; cases hmem
  | cons p0 rest ih =>
    intro winner round pd pd2 p d hnd hmem hd h
    simp only [p3_scoreAll] at h
    cases hl : List.lookup p0 pd with
    | none => rw [hl] at h; cases h
    | some d0 =>
      simp only [hl] at h
      rcases List.mem_cons.mp hmem with hp0 | hrest
      · subst hp0
        have hd0 : d0 = d := by rw [hl] at hd; exact (Option.some.inj hd)
        subst hd0
        have hnotin : p ∉ rest := (List.nodup_cons.mp hnd).1
        rw [p3_scoreAll_lookup_notmem rest winner round _ pd2 p hnotin h]
        simp only [roundScore]
        exact lookup_setPD_self pd p _ d0 hl
      · have hp0ne : p ≠ p0 := by
          intro hc; subst hc
          exact (List.nodup_cons.mp hnd).1 hrest
        have hd2 : List.lookup p (setPD pd p0
            { d0 with scores := d0.scores.set (round - 1) (if p0 = winner then 0 else (d0.hand.map Card.scoreValue).sum) }) = some d := by
          rw [lookup_setPD_ne _ p0 p _ hp0ne]; exact hd
        exact ih winner round _ pd2 p d (List.nodup_cons.mp hnd).2 hrest hd2 h

lemma setPD_scores_eq (pd : PDMap) (p : String) (d v : PData) (q : String)
    (hd : List.lookup p pd = some d) (hs : v.scores = d.scores) :
    (List.lookup q (setPD pd p v)).map PData.scores = (List.lookup q pd).map PData.scores := by
  by_cases hq : q = p
  · subst hq
    rw [lookup_setPD_self pd q v d hd, hd]
    simp [hs]
  · rw [lookup_setPD_ne pd p q v hq]

lemma p3_resetForRound_scores :
    ∀ (names : List String) (pd pd2 : PDMap),
      p3_resetForRound names pd = some pd2 →
      ∀ q, (List.lookup q pd2).map PData.scores = (List.lookup q pd).map PData.scores := by
  intro names
  induction names with
  | nil =>
    intro pd pd2 h q
    simp only [p3_resetForRound] at h
    cases h; rfl
  | cons p0 rest ih =>
    intro pd pd2 h q
    simp only [p3_resetForRound] at h
    cases hl : List.lookup p0 pd with
    | none => rw [hl] at h; cases h
    | some d0 =>
      rw [hl] at h
      rw [ih _ pd2 h q]
      exact setPD_scores_eq pd p0 d0 _ q hl rfl

lemma p3_dealOneEach_scores :
    ∀ (names : List String) (pd : PDMap) (stock : List Card) (pd2 : PDMap) (st2 : List Card),
      p3_dealOneEach names pd stock = some (pd2, st2) →
      ∀ q, (List.lookup q pd2).map PData.scores = (List.lookup q pd).map PData.scores := by
  intro names
  induction names with
  | nil =>
    intro pd stock pd2 st2 h q
    simp only [p3_dealOneEach] at h
    cases h; rfl
  | cons p0 rest ih =>
    intro pd stock pd2 st2 h q
    simp only [p3_dealOneEach] at h
    cases hl : List.lookup p0 pd with
    | none => rw [hl] at h; cases h
    | some d0 =>
      rw [hl] at h
      cases stock with
      | nil => cases h
      | cons c cs =>
        rw [ih _ cs pd2 st2 h q]
        exact setPD_scores_eq pd p0 d0 _ q hl rfl

lemma p3_dealInterleaved_scores :
    ∀ (k : Nat) (names : List String) (pd : PDMap) (stock : List Card)
      (pd2 : PDMap) (st2 : List Card),
      p3_dealInterleaved k names pd stock = some (pd2, st2) →
      ∀ q, (List.lookup q pd2).map PData.scores = (List.lookup q pd).map PData.scores := by
  intro k
  induction k with
  | zero =>
    intro names pd stock pd2 st2 h q
    simp only [p3_dealInterleaved] at h
    cases h; rfl
  | succ n ih =>
    intro names pd stock pd2 st2 h q
    simp only [p3_dealInterleaved] at h
    cases h1 : p3_dealOneEach names pd stock with
    | none => rw [h1] at h; cases h
    | some r1 =>
      rw [h1] at h
      rw [ih names r1.1 r1.2 pd2 st2 h q]
      exact p3_dealOneEach_scores names pd stock r1.1 r1.2 h1 q

lemma p3_dealRound_scores (s : GameState) (fresh : List Card) (s2 : GameState)
    (h : p3_dealRound s fresh = some s2) :
    ∀ q, scoresOf? s2 q = scoresOf? s q := by
  intro q
  simp only [p3_dealRound] at h
  cases h0 : p3_resetForRound s.players s.playerData with
  | none => simp only [h0] at h; cases h
  | some pd0 =>
    simp only [h0] at h
    cases h1 : p3_dealInterleaved (10 + s.currentRound) s.players pd0 fresh with
    | none => simp only [h1] at h; cases h
    | some r1 =>
      obtain ⟨pd1, st1⟩ := r1
      simp only [h1] at h
      cases st1 with
      | nil => cases h
      | cons c rest =>
        cases h
        simp only [scoresOf?]
        rw [p3_dealInterleaved_scores _ s.players pd0 fresh pd1 (c :: rest) h1 q]
        rw [p3_resetForRound_scores s.players s.playerData pd0 h0 q]

/-- C6.  part_003/part_001's endRound records, at index currentRound - 1 of
each player's score array, 0 for the winner and the sum of the score values
(A=20, J/Q/K=10, numbers face) of the cards left in the hand for every other
player; the scores survive the redeal of the following round. -/
theorem endRound_scores_spec (s : GameState) (winner p : String) (fresh : List Card)
    (res : RoundResult) (s2 : GameState) (d : PData)
    (hnd : s.players.Nodup) (hp : p ∈ s.players)
    (hd : List.lookup p s.playerData = some d)
    (hr : p3_endRound s winner fresh = some (res, s2)) :
    scoresOf? s2 p = some (d.scores.set (s.currentRound - 1)
      (if p = winner then 0 else (d.hand.map Card.scoreValue).sum)) ∧
    (s.currentRound - 1 < d.scores.length →
      (scoresOf? s2 p).bind (fun l => l.get? (s.currentRound - 1)) =
        some (if p = winner then 0 else (d.hand.map Card.scoreValue).sum)) := by
  have hmain : scoresOf? s2 p = some (d.scores.set (s.currentRound - 1)
      (if p = winner then 0 else (d.hand.map Card.scoreValue).sum)) := by
    simp only [p3_endRound] at hr
    cases h0 : p3_scoreAll s.players winner s.currentRound s.playerData with
    | none => simp only [h0] at hr; cases hr
    | some pd1 =>
      simp only [h0] at hr
      have hlook := p3_scoreAll_lookup s.players winner s.currentRound s.playerData pd1
        p d hnd hp hd h0
      by_cases h7 : 7 ≤ s.currentRound
      · rw [if_pos h7] at hr
        cases hg : endGame { s with playerData := pd1 } with
        | none => simp only [hg] at hr; cases hr
        | some results =>
          simp only [hg] at hr
          cases hr
          simp only [scoresOf?, hlook, roundScore, Option.map_some']
      · rw [if_neg h7] at hr
        cases hdeal : p3_dealRound ({ s with playerData := pd1, currentRound := s.currentRound + 1 }) fresh with
        | none => simp only [hdeal] at hr; cases hr
        | some s3 =>
          simp only [hdeal] at hr
          cases hr
          rw [p3_dealRound_scores _ fresh _ hdeal p]
          simp only [scoresOf?, hlook, roundScore, Option.map_some']
  refine ⟨hmain, fun hlen => ?_⟩
  rw [hmain]
  show (d.scores.set (s.currentRound - 1)
      (if p = winner then 0 else (d.hand.map Card.scoreValue).sum)).get?
      (s.currentRound - 1) = some (if p = winner then 0 else (d.hand.map Card.scoreValue).sum)
  rw [List.get?_eq_getElem?]
  exact List.getElem?_set_eq_of_lt _ hlen

/-- Hand of player B in the C6 witness scenario: worth 20 + 10 + 7 = 37. -/
def dataC6B : PData :=
  { initPData with hand := [⟨Suit.hearts, Rank.ace⟩, ⟨Suit.spades, Rank.king⟩,
                            ⟨Suit.diamonds, Rank.r7⟩] }

/-- Round-7 state in which A has just gone out and B retains three cards. -/
def stateC6 : GameState :=
  { players := ["A", "B"]
    playerData := [("A", initPData), ("B", dataC6B)]
    currentRound := 7
    currentPlayerIndex := 0
    stock := [⟨Suit.clubs, Rank.r3⟩]
    discardPile := [⟨Suit.spades, Rank.r2⟩]
    turnState := true
    buyPhase := ⟨false, none, []⟩ }

/-- Witness for C6: ending round 7 with winner A records 37 = 20 + 10 + 7 in
slot 7 of B's score array. -/
theorem endRound_scores_spec_witness :
    ((p3_endRound stateC6 "A" []).map (fun r => scoresOf? r.2 "B")) =
      some (some [0, 0, 0, 0, 0, 0, 37]) := by
  cases hr : p3_endRound stateC6 "A" [] with
  | none => exact absurd hr (by decide)
  | some r =>
    obtain ⟨res, s2⟩ := r
    have h := endRound_scores_spec stateC6 "A" "B" [] res s2 dataC6B
      (by decide) (by decide) (by decide) hr
    simp only [Option.map_some']
    rw [h.1]
    decide

lemma buildTotals_mem :
    ∀ (names : List String) (pd : PDMap) (t : List (String × Nat)),
      buildTotals names pd = some t →
      ∀ (p : String) (d : PData), p ∈ names → List.lookup p pd = some d →
        (p, d.scores.sum) ∈ t := by
  intro names
  induction names with
  | nil => intro pd t _ p d hmem; cases hmem
  | cons p0 rest ih =>
    intro pd t h p d hmem hd
    simp only [buildTotals] at h
    cases hl : List.lookup p0 pd with
    | none => simp only [hl] at h; cases h
    | some d0 =>
      simp only [hl] at h
      cases hb : buildTotals rest pd with
      | none => simp only [hb] at h; cases h
      | some t0 =>
        simp only [hb] at h
        cases h
        rcases List.mem_cons.mp hmem with hp0 | hrest
        · subst hp0
          have : d0 = d := Option.some.inj (hl ▸ hd)
          subst this
          exact List.mem_cons_self _ _
        · exact List.mem_cons_of_mem _ (ih pd t0 hb p d hrest hd)

/-- C8.  endGame sorts the players ascending by the sum of their per-round
score entries; the declared winner heads the standings and holds a minimal
total; every player appears with their score-array sum as total. -/
theorem endGame_spec (s : GameState) (res : FinalResults)
    (h : endGame s = some res) :
    List.Sorted totalLE res.finalStandings ∧
    res.finalStandings.head? = some (res.winner, res.winnerScore) ∧
    (∀ x ∈ res.finalStandings, res.winnerScore ≤ x.2) ∧
    (∀ (p : String) (d : PData), p ∈ s.players → List.lookup p s.playerData = some d →
      (p, d.scores.sum) ∈ res.finalStandings) := by
  simp only [endGame] at h
  cases hb : buildTotals s.players s.playerData with
  | none => simp only [hb] at h; cases h
  | some totals =>
    simp only [hb] at h
    cases hsort : List.insertionSort totalLE totals with
    | nil => simp only [hsort] at h; cases h
    | cons w rest =>
      simp only [hsort] at h
      cases h
      have hsorted : List.Sorted totalLE (w :: rest) := by
        rw [← hsort]; exact List.sorted_insertionSort totalLE totals
      refine ⟨hsorted, rfl, ?_, ?_⟩
      · intro x hx
        rcases List.mem_cons.mp hx with hxw | hxr
        · subst hxw; exact Nat.le_refl _
        · exact (List.pairwise_cons.mp hsorted).1 x hxr
      · intro p d hp hd
        have hmem : (p, d.scores.sum) ∈ totals :=
          buildTotals_mem s.players s.playerData totals hb p d hp hd
        have : (p, d.scores.sum) ∈ List.insertionSort totalLE totals :=
          (List.perm_insertionSort totalLE totals).symm.subset hmem
        rw [hsort] at this
        exact this

/-- Final state of two players after all seven rounds, A totalling 30 and B
totalling 10. -/
def stateC8 : GameState :=
  { players := ["A", "B"]
    playerData :=
      [("A", { initPData with scores := [4, 0, 6, 0, 10, 0, 10] }),
       ("B", { initPData with scores := [0, 3, 0, 2, 0, 5, 0] })]
    currentRound := 7
    currentPlayerIndex := 0
    stock := []
    discardPile := []
    turnState := false
    buyPhase := ⟨false, none, []⟩ }

/-- Witness for C8: B wins with the lower total 10 and the standings come back
ascending. -/
theorem endGame_spec_witness :
    endGame stateC8 = some ⟨"B", 10, [("B", 10), ("A", 30)]⟩ ∧
    List.Sorted totalLE [("B", 10), ("A", 30)] ∧
    ("A", 30) ∈ ([("B", 10), ("A", 30)] : List (String × Nat)) := by
  have h : endGame stateC8 = some ⟨"B", 10, [("B", 10), ("A", 30)]⟩ := by decide
  have h2 := endGame_spec stateC8 ⟨"B", 10, [("B", 10), ("A", 30)]⟩ h
  exact ⟨h, h2.1, h2.2.2.2 "A" { initPData with scores := [4, 0, 6, 0, 10, 0, 10] }
    (by decide) (by decide)⟩

/-- Modelled from the claim's words: the first player in turn order (= players
list order) among those who requested to buy.  Used only to compare against
the code's choice. -/
def firstBuyerInTurnOrder (s : GameState) : Option String :=
  s.players.find? (fun p => (s.buyPhase.requests.lookup p).getD false)

/-- C9 (amended behaviour of src/server.js processBuyPhase).  With at least
one positive entry in the recorded request list, exactly the FIRST requester
in request-record order buys: they receive the top discard plus the top stock
card appended to their hand and lose one buy token, every other player's hand
is untouched, and in every case the request map is cleared, the buy window
closes and the turn advances with hasDrawn reset. -/
theorem processBuyPhase_spec (s : GameState) :
    (∀ (b : String) (bs : List String) (d : PData) (top c : Card)
        (rest cs : List Card),
        (s.buyPhase.requests.filter (fun e => e.2)).map (fun e => e.1) = b :: bs →
        List.lookup b s.playerData = some d →
        s.discardPile = top :: rest → s.stock = c :: cs → 1 ≤ d.buys →
        (((server_processBuyPhase s).map (fun r =>
            (r.1, handOf? r.2 b, buysOf? r.2 b, r.2.buyPhase,
             r.2.currentPlayerIndex, r.2.discardPile, r.2.stock, r.2.turnState))) =
          some (some b, some (d.hand ++ [top, c]), some (d.buys - 1),
            ⟨false, none, []⟩, (s.currentPlayerIndex + 1) % s.players.length,
            rest, cs, false) ∧
         (∀ q, q ≠ b →
           ((server_processBuyPhase s).map (fun r => handOf? r.2 q)) =
             some (handOf? s q)))) ∧
    ((s.buyPhase.requests.filter (fun e => e.2)).map (fun e => e.1) = [] →
      server_processBuyPhase s = some (none, server_endBuyPhase s)) := by
  constructor
  · intro b bs d top c rest cs hb hd hdis hst _hbuys
    have hrun : server_processBuyPhase s =
        some (some b, server_endBuyPhase
          { s with
            playerData := setPD s.playerData b
              { d with hand := d.hand ++ [top, c], buys := d.buys - 1 }
            discardPile := rest
            stock := cs }) := by
      simp only [server_processBuyPhase, hb, hd, hdis, hst]
    constructor
    · rw [hrun]
      simp only [Option.map_some', server_endBuyPhase, server_nextTurn,
        handOf?, buysOf?]
      rw [lookup_setPD_self s.playerData b _ d hd]
      rfl
    · intro q hq
      rw [hrun]
      simp only [Option.map_some', server_endBuyPhase, server_nextTurn, handOf?]
      rw [lookup_setPD_ne s.playerData b q _ hq]
  · intro hempty
    simp only [server_processBuyPhase, hempty]

/-- Buy-window state: P3 has just discarded the queen of hearts, the AI player
P2 was seeded into the request map when the window opened, and the human P1 —
earlier in turn order — submitted afterwards. -/
def stateC9 : GameState :=
  { players := ["P1", "P2", "P3"]
    playerData := [("P1", initPData), ("P2", initPData), ("P3", initPData)]
    currentRound := 1
    currentPlayerIndex := 2
    stock := [⟨Suit.clubs, Rank.r8⟩]
    discardPile := [⟨Suit.hearts, Rank.queen⟩]
    turnState := true
    buyPhase := ⟨true, some ⟨Suit.hearts, Rank.queen⟩, [("P2", true), ("P1", true)]⟩ }

/-- C9 counterexample.  P1 precedes P2 in turn order and both requested, so
the claim elects P1; the code takes the request map in insertion order (AI
answers seeded at window open, humans on arrival) and gives the card to P2,
leaving P1's hand untouched. -/
theorem processBuyPhase_not_turn_order :
    firstBuyerInTurnOrder stateC9 = some "P1" ∧
    ((server_processBuyPhase stateC9).map (fun r => r.1)) = some (some "P2") ∧
    ((server_processBuyPhase stateC9).map (fun r => handOf? r.2 "P1")) =
      some (handOf? stateC9 "P1") ∧
    ((server_processBuyPhase stateC9).map (fun r => handOf? r.2 "P2")) =
      some (some [⟨Suit.hearts, Rank.queen⟩, ⟨Suit.clubs, Rank.r8⟩]) ∧
    ("P1" : String) ≠ "P2" := by
  refine ⟨rfl, rfl, rfl, rfl, by decide⟩

/-- Witness for C9's amended theorem at the concrete window state. -/
theorem processBuyPhase_spec_witness :
    ((server_processBuyPhase stateC9).map (fun r =>
        (r.1, handOf? r.2 "P2", buysOf? r.2 "P2", r.2.buyPhase,
         r.2.currentPlayerIndex, r.2.discardPile, r.2.stock, r.2.turnState))) =
      some (some "P2", some [⟨Suit.hearts, Rank.queen⟩, ⟨Suit.clubs, Rank.r8⟩],
        some 2, ⟨false, none, []⟩, 0, [], [], false) :=
  ((processBuyPhase_spec stateC9).1 "P2" ["P1"] initPData
    ⟨Suit.hearts, Rank.queen⟩ ⟨Suit.clubs, Rank.r8⟩ [] []
    rfl (by decide) rfl rfl (by decide)).1

lemma insertIdx_eraseIdx_self :
    ∀ (l : List Card) (i : Nat) (a : Card), l.get? i = some a →
      (l.eraseIdx i).insertIdx i a = l := by
  intro l
  induction l with
  | nil => intro i a h; simp [List.get?] at h
  | cons x t ih =>
    intro i a h
    cases i with
    | zero =>
      simp only [List.get?] at h
      cases h
      rfl
    | succ n =>
      simp only [List.get?] at h
      simp only [List.eraseIdx, List.insertIdx_succ_cons]
      rw [ih n a h]

lemma set_get?_self :
    ∀ (l : List Meld) (i : Nat) (a : Meld), l.get? i = some a → l.set i a = l := by
  intro l
  induction l with
  | nil => intro i a h; simp [List.get?] at h
  | cons x t ih =>
    intro i a h
    cases i with
    | zero =>
      simp only [List.get?] at h
      cases h
      rfl
    | succ n =>
      simp only [List.get?] at h
      simp only [List.set]
      rw [ih n a h]

lemma one_le_cardValue (c : Card) : 1 ≤ c.value := by
  cases hr : c.rank <;> simp [Card.value, rankValue, hr]

lemma sorted_getLastD_max :
    ∀ (l : List Nat) (v0 : Nat), List.Sorted (· ≤ ·) (v0 :: l) →
      l.getLastD v0 ∈ v0 :: l ∧ ∀ v ∈ v0 :: l, v ≤ l.getLastD v0 := by
  intro l
  induction l with
  | nil =>
    intro v0 _
    constructor
    · exact List.mem_cons_self _ _
    · intro v hv
      rcases List.mem_cons.mp hv with h | h
      · subst h; exact Nat.le_refl _
      · cases h
  | cons v1 t ih =>
    intro v0 hs
    have hs1 : List.Sorted (· ≤ ·) (v1 :: t) := (List.sorted_cons.mp hs).2
    have h01 : v0 ≤ v1 := (List.sorted_cons.mp hs).1 v1 (List.mem_cons_self _ _)
    obtain ⟨hmem, hbound⟩ := ih v1 hs1
    rw [List.getLastD_cons]
    constructor
    · exact List.mem_cons_of_mem _ hmem
    · intro v hv
      rcases List.mem_cons.mp hv with h | h
      · subst h
        exact Nat.le_trans h01 (hbound v1 (List.mem_cons_self _ _))
      · exact hbound v h

lemma canLayOff_extends (card : Card) (meld : Meld)
    (h : canLayOffCard card meld = true) : extendsMeldSpec card meld := by
  cases hm : meld.mtype with
  | set =>
    simp only [canLayOffCard, hm] at h
    simp only [extendsMeldSpec, hm]
    intro mc hmc
    exact of_decide_eq_true ((List.all_eq_true.mp h) mc hmc)
  | run =>
    simp only [canLayOffCard, hm] at h
    simp only [extendsMeldSpec, hm]
    cases hcards : meld.cards with
    | nil => simp only [hcards] at h; cases h
    | cons c0 crest =>
      simp only [hcards] at h
      by_cases hsuit : card.suit = c0.suit
      · rw [if_pos hsuit] at h
        refine ⟨⟨c0, rfl, hsuit⟩, ?_⟩
        cases hsort : List.insertionSort (· ≤ ·) ((c0 :: crest).map Card.value) with
        | nil =>
          exfalso
          have hp := List.perm_insertionSort (· ≤ ·) ((c0 :: crest).map Card.value)
          rw [hsort] at hp
          have := hp.length_eq
          simp at this
        | cons v0 vrest =>
          simp only [hsort] at h
          have hperm : (v0 :: vrest).Perm ((c0 :: crest).map Card.value) := by
            rw [← hsort]
            exact List.perm_insertionSort _ _
          have hsorted : List.Sorted (· ≤ ·) (v0 :: vrest) := by
            rw [← hsort]
            exact List.sorted_insertionSort _ _
          rcases Bool.or_eq_true _ _ |>.mp h with hlo | hhi
          · left
            have hv0mem : v0 ∈ (c0 :: crest).map Card.value :=
              hperm.subset (List.mem_cons_self _ _)
            refine ⟨v0, hv0mem, ?_, ?_⟩
            · intro v hv
              have hv2 : v ∈ v0 :: vrest := hperm.symm.subset hv
              rcases List.mem_cons.mp hv2 with h2 | h2
              · subst h2; exact Nat.le_refl _
              · exact (List.sorted_cons.mp hsorted).1 v h2
            · have heq : card.value = v0 - 1 := of_decide_eq_true hlo
              have h1c : 1 ≤ card.value := one_le_cardValue card
              obtain ⟨cw, _hcw, hcweq⟩ := List.mem_map.mp hv0mem
              have h1v : 1 ≤ v0 := hcweq ▸ one_le_cardValue cw
              omega
          · right
            obtain ⟨hmem, hbound⟩ := sorted_getLastD_max vrest v0 hsorted
            refine ⟨vrest.getLastD v0, hperm.subset hmem, ?_, ?_⟩
            · intro v hv
              exact hbound v (hperm.symm.subset hv)
            · exact of_decide_eq_true hhi
      · rw [if_neg hsuit] at h
        cases h

/-- C10.  part_003's layOffCard succeeds only for the current player who
already meets the round requirements and whose chosen card legally extends the
target meld (rank match for a set; the run's suit with a value extending one
end of its range by one); every failure return leaves the caller's hand and
the target meld as they were. -/
theorem layOffCard_spec (s : GameState) (player : String) (cardIndex : Nat)
    (target : String) (meldIndex : Nat) (fresh : List Card)
    (r : ActionResult) (s2 : GameState)
    (h : p3_layOffCard s player cardIndex target meldIndex fresh = some (r, s2)) :
    (∀ b, r = ActionResult.success b →
      currentPlayerOf s = some player ∧ p3_validateReq s player = true ∧
      ∃ hand card meld, handOf? s player = some hand ∧ hand.get? cardIndex = some card ∧
        meldAt? s target meldIndex = some meld ∧ canLayOffCard card meld = true ∧
        extendsMeldSpec card meld) ∧
    (∀ msg, r = ActionResult.failure msg →
      handOf? s2 player = handOf? s player ∧ meldsOf? s2 target = meldsOf? s target) := by
  simp only [p3_layOffCard] at h
  by_cases hturn : currentPlayerOf s ≠ some player
  · rw [if_pos hturn] at h
    rw [Option.some.injEq, Prod.mk.injEq] at h
    obtain ⟨hr, hs2⟩ := h
    subst hr; subst hs2
    exact ⟨fun b hb => ActionResult.noConfusion hb, fun msg _ => ⟨rfl, rfl⟩⟩
  · rw [if_neg hturn] at h
    have hcur : currentPlayerOf s = some player := not_not.mp hturn
    by_cases hreq : p3_validateReq s player = false
    · rw [if_pos hreq] at h
      rw [Option.some.injEq, Prod.mk.injEq] at h
      obtain ⟨hr, hs2⟩ := h
      subst hr; subst hs2
      exact ⟨fun b hb => ActionResult.noConfusion hb, fun msg _ => ⟨rfl, rfl⟩⟩
    · rw [if_neg hreq] at h
      have hreqT : p3_validateReq s player = true := by
        cases hx : p3_validateReq s player with
        | false => exact absurd hx hreq
        | true => rfl
      cases hd : List.lookup player s.playerData with
      | none => simp only [hd] at h; cases h
      | some d =>
        simp only [hd] at h
        cases hget : d.hand.get? cardIndex with
        | none =>
          simp only [hget] at h
          rw [Option.some.injEq, Prod.mk.injEq] at h
          obtain ⟨hr, hs2⟩ := h
          subst hr; subst hs2
          exact ⟨fun b hb => ActionResult.noConfusion hb, fun msg _ => ⟨rfl, rfl⟩⟩
        | some card =>
          simp only [hget] at h
          cases htd : List.lookup target s.playerData with
          | none =>
            simp only [htd] at h
            rw [Option.some.injEq, Prod.mk.injEq] at h
            obtain ⟨hr, hs2⟩ := h
            subst hr; subst hs2
            exact ⟨fun b hb => ActionResult.noConfusion hb, fun msg _ => ⟨rfl, rfl⟩⟩
          | some td =>
            simp only [htd] at h
            cases hmeld : td.melds.get? meldIndex with
            | none =>
              simp only [hmeld] at h
              rw [Option.some.injEq, Prod.mk.injEq] at h
              obtain ⟨hr, hs2⟩ := h
              subst hr; subst hs2
              exact ⟨fun b hb => ActionResult.noConfusion hb, fun msg _ => ⟨rfl, rfl⟩⟩
            | some meld =>
              simp only [hmeld] at h
              by_cases hcan : canLayOffCard card meld = false
              · rw [if_pos hcan] at h
                rw [Option.some.injEq, Prod.mk.injEq] at h
                obtain ⟨hr, hs2⟩ := h
                subst hr; subst hs2
                exact ⟨fun b hb => ActionResult.noConfusion hb, fun msg _ => ⟨rfl, rfl⟩⟩
              · rw [if_neg hcan] at h
                have hcanT : canLayOffCard card meld = true := by
                  cases hx : canLayOffCard card meld with
                  | false => exact absurd hx hcan
                  | true => rfl
                have hsucc : currentPlayerOf s = some player ∧
                    p3_validateReq s player = true ∧
                    ∃ hand card2 meld2, handOf? s player = some hand ∧
                      hand.get? cardIndex = some card2 ∧
                      meldAt? s target meldIndex = some meld2 ∧
                      canLayOffCard card2 meld2 = true ∧ extendsMeldSpec card2 meld2 := by
                  refine ⟨hcur, hreqT, d.hand, card, meld, ?_, hget, ?_, hcanT,
                    canLayOff_extends card meld hcanT⟩
                  · simp [handOf?, hd]
                  · simp only [meldAt?, meldsOf?]
                    rw [htd]
                    exact hmeld
                have hlt : meldIndex < td.melds.length := (List.get?_eq_some.mp hmeld).1
                by_cases hpt : player = target
                · subst hpt
                  have htdd : td = d := Option.some.inj (htd.symm.trans hd)
                  subst htdd
                  have hA : List.lookup player (setPD s.playerData player { td with hand := td.hand.eraseIdx cardIndex }) = some { td with hand := td.hand.eraseIdx cardIndex } := lookup_setPD_self _ _ _ _ hd
                  simp only [hA] at h
                  by_cases hemp : (td.hand.eraseIdx cardIndex).isEmpty = true
                  · rw [if_pos hemp] at h
                    by_cases hreq2 : p3_validateReq { s with playerData := setPD (setPD s.playerData player { td with hand := td.hand.eraseIdx cardIndex }) player { td with hand := td.hand.eraseIdx cardIndex, melds := td.melds.set meldIndex { meld with cards := meld.cards ++ [card] } } } player = false
                    · rw [if_pos hreq2] at h
                      have hB : List.lookup player (setPD (setPD s.playerData player { td with hand := td.hand.eraseIdx cardIndex }) player { td with hand := td.hand.eraseIdx cardIndex, melds := td.melds.set meldIndex { meld with cards := meld.cards ++ [card] } }) = some { td with hand := td.hand.eraseIdx cardIndex, melds := td.melds.set meldIndex { meld with cards := meld.cards ++ [card] } } := lookup_setPD_self _ _ _ _ hA
                      simp only [hB] at h
                      have hC : List.lookup player (setPD (setPD (setPD s.playerData player { td with hand := td.hand.eraseIdx cardIndex }) player { td with hand := td.hand.eraseIdx cardIndex, melds := td.melds.set meldIndex { meld with cards := meld.cards ++ [card] } }) player { td with hand := (td.hand.eraseIdx cardIndex).insertIdx cardIndex card, melds := td.melds.set meldIndex { meld with cards := meld.cards ++ [card] } }) = some { td with hand := (td.hand.eraseIdx cardIndex).insertIdx cardIndex card, melds := td.melds.set meldIndex { meld with cards := meld.cards ++ [card] } } := lookup_setPD_self _ _ _ _ hB
                      simp only [hC] at h
                      have hget2 : (td.melds.set meldIndex { meld with cards := meld.cards ++ [card] }).get? meldIndex = some { meld with cards := meld.cards ++ [card] } := by
                        rw [List.get?_eq_getElem?]
                        exact List.getElem?_set_eq_of_lt _ hlt
                      simp only [hget2] at h
                      rw [Option.some.injEq, Prod.mk.injEq] at h
                      obtain ⟨hr, hs2⟩ := h
                      subst hr
                      refine ⟨fun b hb => ActionResult.noConfusion hb, fun msg _ => ?_⟩
                      have hD : List.lookup player (setPD (setPD (setPD (setPD s.playerData player { td with hand := td.hand.eraseIdx cardIndex }) player { td with hand := td.hand.eraseIdx cardIndex, melds := td.melds.set meldIndex { meld with cards := meld.cards ++ [card] } }) player { td with hand := (td.hand.eraseIdx cardIndex).insertIdx cardIndex card, melds := td.melds.set meldIndex { meld with cards := meld.cards ++ [card] } }) player { td with hand := (td.hand.eraseIdx cardIndex).insertIdx cardIndex card, melds := (td.melds.set meldIndex { meld with cards := meld.cards ++ [card] }).set meldIndex { meld with cards := (meld.cards ++ [card]).dropLast } }) = some { td with hand := (td.hand.eraseIdx cardIndex).insertIdx cardIndex card, melds := (td.melds.set meldIndex { meld with cards := meld.cards ++ [card] }).set meldIndex { meld with cards := (meld.cards ++ [card]).dropLast } } := lookup_setPD_self _ _ _ _ hC
                      subst hs2
                      constructor
                      · simp only [handOf?, hD, hd, Option.map_some']
                        rw [insertIdx_eraseIdx_self td.hand cardIndex card hget]
                      · simp only [meldsOf?, hD, hd, Option.map_some']
                        rw [List.set_set, List.dropLast_concat]
                        rw [(rfl : ({ meld with cards := meld.cards } : Meld) = meld)]
                        rw [set_get?_self td.melds meldIndex meld hmeld]
                    · rw [if_neg hreq2] at h
                      cases hend : p3_endRound { s with playerData := setPD (setPD s.playerData player { td with hand := td.hand.eraseIdx cardIndex }) player { td with hand := td.hand.eraseIdx cardIndex, melds := td.melds.set meldIndex { meld with cards := meld.cards ++ [card] } } } player fresh with
                      | none => simp only [hend] at h; cases h
                      | some rr =>
                        obtain ⟨rr1, s3⟩ := rr
                        simp only [hend] at h
                        rw [Option.some.injEq, Prod.mk.injEq] at h
                        obtain ⟨hr, hs2⟩ := h
                        subst hr
                        exact ⟨fun b _ => hsucc, fun msg hmsg => ActionResult.noConfusion hmsg⟩
                  · rw [if_neg hemp] at h
                    rw [Option.some.injEq, Prod.mk.injEq] at h
                    obtain ⟨hr, hs2⟩ := h
                    subst hr
                    exact ⟨fun b _ => hsucc, fun msg hmsg => ActionResult.noConfusion hmsg⟩
                · have hpt2 : target ≠ player := fun hc => hpt hc.symm
                  have hA : List.lookup target (setPD s.playerData player { d with hand := d.hand.eraseIdx cardIndex }) = some td := by
                    rw [lookup_setPD_ne _ player target _ hpt2]
                    exact htd
                  simp only [hA] at h
                  by_cases hemp : (d.hand.eraseIdx cardIndex).isEmpty = true
                  · rw [if_pos hemp] at h
                    by_cases hreq2 : p3_validateReq { s with playerData := setPD (setPD s.playerData player { d with hand := d.hand.eraseIdx cardIndex }) target { td with melds := td.melds.set meldIndex { meld with cards := meld.cards ++ [card] } } } player = false
                    · rw [if_pos hreq2] at h
                      have hB : List.lookup player (setPD (setPD s.playerData player { d with hand := d.hand.eraseIdx cardIndex }) target { td with melds := td.melds.set meldIndex { meld with cards := meld.cards ++ [card] } }) = some { d with hand := d.hand.eraseIdx cardIndex } := by
                        rw [lookup_setPD_ne _ target player _ (fun hc => hpt hc)]
                        exact lookup_setPD_self _ _ _ _ hd
                      simp only [hB] at h
                      have hC : List.lookup target (setPD (setPD (setPD s.playerData player { d with hand := d.hand.eraseIdx cardIndex }) target { td with melds := td.melds.set meldIndex { meld with cards := meld.cards ++ [card] } }) player { d with hand := (d.hand.eraseIdx cardIndex).insertIdx cardIndex card }) = some { td with melds := td.melds.set meldIndex { meld with cards := meld.cards ++ [card] } } := by
                        rw [lookup_setPD_ne _ player target _ hpt2]
                        exact lookup_setPD_self _ _ _ _ hA
                      simp only [hC] at h
                      have hget2 : (td.melds.set meldIndex { meld with cards := meld.cards ++ [card] }).get? meldIndex = some { meld with cards := meld.cards ++ [card] } := by
                        rw [List.get?_eq_getElem?]
                        exact List.getElem?_set_eq_of_lt _ hlt
                      simp only [hget2] at h
                      rw [Option.some.injEq, Prod.mk.injEq] at h
                      obtain ⟨hr, hs2⟩ := h
                      subst hr
                      refine ⟨fun b hb => ActionResult.noConfusion hb, fun msg _ => ?_⟩
                      subst hs2
                      constructor
                      · simp only [handOf?]
                        rw [lookup_setPD_ne _ target player _ (fun hc => hpt hc)]
                        rw [lookup_setPD_self _ _ _ _ hB]
                        rw [hd]
                        simp only [Option.map_some']
                        rw [insertIdx_eraseIdx_self d.hand cardIndex card hget]
                      · simp only [meldsOf?]
                        rw [lookup_setPD_self _ _ _ _ hC]
                        rw [htd]
                        simp only [Option.map_some']
                        rw [List.set_set, List.dropLast_concat]
                        rw [(rfl : ({ meld with cards := meld.cards } : Meld) = meld)]
                        rw [set_get?_self td.melds meldIndex meld hmeld]
                    · rw [if_neg hreq2] at h
                      cases hend : p3_endRound { s with playerData := setPD (setPD s.playerData player { d with hand := d.hand.eraseIdx cardIndex }) target { td with melds := td.melds.set meldIndex { meld with cards := meld.cards ++ [card] } } } player fresh with
                      | none => simp only [hend] at h; cases h
                      | some rr =>
                        obtain ⟨rr1, s3⟩ := rr
                        simp only [hend] at h
                        rw [Option.some.injEq, Prod.mk.injEq] at h
                        obtain ⟨hr, hs2⟩ := h
                        subst hr
                        exact ⟨fun b _ => hsucc, fun msg hmsg => ActionResult.noConfusion hmsg⟩
                  · rw [if_neg hemp] at h
                    rw [Option.some.injEq, Prod.mk.injEq] at h
                    obtain ⟨hr, hs2⟩ := h
                    subst hr
                    exact ⟨fun b _ => hsucc, fun msg hmsg => ActionResult.noConfusion hmsg⟩

/-- Two sets of three already laid down by player A: round 1's contract. -/
def meldsC10A : List Meld :=
  [⟨MeldType.set, [⟨Suit.hearts, Rank.r5⟩, ⟨Suit.diamonds, Rank.r5⟩, ⟨Suit.clubs, Rank.r5⟩]⟩,
   ⟨MeldType.set, [⟨Suit.hearts, Rank.r8⟩, ⟨Suit.diamonds, Rank.r8⟩, ⟨Suit.spades, Rank.r8⟩]⟩]

/-- Player B's set of kings, the lay-off target. -/
def meldKings : Meld :=
  ⟨MeldType.set, [⟨Suit.hearts, Rank.king⟩, ⟨Suit.clubs, Rank.king⟩, ⟨Suit.spades, Rank.king⟩]⟩

/-- Round-1 state where A has gone down with two sets and tries to lay the two
of spades off onto B's kings. -/
def stateC10 : GameState :=
  { players := ["A", "B"]
    playerData :=
      [("A", { initPData with hand := [⟨Suit.spades, Rank.r2⟩, ⟨Suit.diamonds, Rank.r9⟩], melds := meldsC10A }),
       ("B", { initPData with hand := [⟨Suit.clubs, Rank.r4⟩], melds := [meldKings] })]
    currentRound := 1
    currentPlayerIndex := 0
    stock := [⟨Suit.clubs, Rank.r6⟩]
    discardPile := [kingH]
    turnState := true
    buyPhase := ⟨false, none, []⟩ }

/-- Witness for C10: the two of spades does not extend the set of kings, the
call fails and returns the state unchanged, and the theorem yields the
unchanged hand and target meld. -/
theorem layOffCard_spec_witness :
    (p3_layOffCard stateC10 "A" 0 "B" 0 [] =
      some (ActionResult.failure "Card cannot be added to that meld", stateC10)) ∧
    (handOf? stateC10 "A" = handOf? stateC10 "A" ∧
      meldsOf? stateC10 "B" = meldsOf? stateC10 "B") :=
  ⟨rfl,
   (layOffCard_spec stateC10 "A" 0 "B" 0 []
      (ActionResult.failure "Card cannot be added to that meld") stateC10 rfl).2
     "Card cannot be added to that meld" rfl⟩

lemma sum_map_const_on (l : List String) (f : String → Nat) (k : Nat)
    (h : ∀ p ∈ l, f p = k) : (l.map f).sum = k * l.length := by
  induction l with
  | nil => simp
  | cons p rest ih =>
    simp only [List.map_cons, List.sum_cons, List.length_cons]
    rw [h p (List.mem_cons_self _ _), ih (fun q hq => h q (List.mem_cons_of_mem _ hq))]
    ring

lemma server_dealHands_spec :
    ∀ (names : List String) (k : Nat) (pd : PDMap) (stock : List Card),
      names.Nodup → (∀ p ∈ names, (List.lookup p pd).isSome) →
      k * names.length ≤ stock.length →
      ∃ pd2 st2, server_dealHands names k pd stock = some (pd2, st2) ∧
        st2.length + k * names.length = stock.length ∧
        (∀ p ∈ names, (List.lookup p pd2).map (fun e => e.hand.length) = some k) ∧
        (∀ q, q ∉ names → List.lookup q pd2 = List.lookup q pd) := by
  intro names
  induction names with
  | nil =>
    intro k pd stock _ _ _
    exact ⟨pd, stock, rfl, by simp, fun p hp => absurd hp (List.not_mem_nil p),
      fun q _ => rfl⟩
  | cons p0 rest ih =>
    intro k pd stock hnd hsome hbound
    have hp0 : (List.lookup p0 pd).isSome = true := hsome p0 (List.mem_cons_self _ _)
    obtain ⟨d0, hd0⟩ := Option.isSome_iff_exists.mp hp0
    have hmul : k * (p0 :: rest).length = k * rest.length + k := by
      simp [List.length_cons, Nat.mul_succ]
    have hklen : k ≤ stock.length := by omega
    have hnotin : p0 ∉ rest := (List.nodup_cons.mp hnd).1
    have hrest_bound : k * rest.length ≤ (stock.drop k).length := by
      rw [List.length_drop]
      omega
    have hsome2 : ∀ p ∈ rest,
        (List.lookup p (setPD pd p0 { d0 with hand := stock.take k, melds := [], buys := 3, goneDown := false })).isSome = true := by
      intro p hp
      have hne : p ≠ p0 := fun hc => hnotin (hc ▸ hp)
      rw [lookup_setPD_ne _ p0 p _ hne]
      exact hsome p (List.mem_cons_of_mem _ hp)
    obtain ⟨pd2, st2, hrun, hlen2, hhands, hother⟩ :=
      ih k (setPD pd p0 { d0 with hand := stock.take k, melds := [], buys := 3, goneDown := false })
        (stock.drop k) (List.nodup_cons.mp hnd).2 hsome2 hrest_bound
    refine ⟨pd2, st2, ?_, ?_, ?_, ?_⟩
    · simp only [server_dealHands, hd0]
      rw [if_pos hklen]
      exact hrun
    · rw [List.length_drop] at hlen2
      omega
    · intro p hp
      rcases List.mem_cons.mp hp with hp0eq | hprest
      · subst hp0eq
        rw [hother p hnotin]
        rw [lookup_setPD_self _ _ _ _ hd0]
        simp only [Option.map_some']
        rw [List.length_take]
        rw [Nat.min_eq_left hklen]
      · exact hhands p hprest
    · intro q hq
      have hq1 : q ≠ p0 := fun hc => hq (hc ▸ List.mem_cons_self p0 rest)
      have hq2 : q ∉ rest := fun hc => hq (List.mem_cons_of_mem _ hc)
      rw [hother q hq2]
      exact lookup_setPD_ne _ p0 q _ hq1

/-- C7 (amended).  For rosters of distinct players whose needs fit the
104-card shoe — (10 + round) × players + 1 ≤ 104, e.g. at most six players —
server.js dealRound succeeds, gives each player exactly 10 + round cards,
leaves exactly one starter on the discard pile, and hands + discard + stock
total exactly the 104 dealt cards. -/
theorem dealRound_counts_spec (s : GameState) (fresh : List Card)
    (hnd : s.players.Nodup)
    (hdata : ∀ p ∈ s.players, (List.lookup p s.playerData).isSome = true)
    (hlen : fresh.length = 104)
    (hbound : (10 + s.currentRound) * s.players.length + 1 ≤ 104) :
    ∃ s2, server_dealRound s fresh = some s2 ∧
      s2.players = s.players ∧
      (∀ p ∈ s.players,
        (List.lookup p s2.playerData).map (fun e => e.hand.length) = some (10 + s.currentRound)) ∧
      s2.discardPile.length = 1 ∧
      (s.players.map (fun p =>
          ((List.lookup p s2.playerData).map (fun e => e.hand.length)).getD 0)).sum
        + s2.discardPile.length + s2.stock.length = 104 := by
  cases fresh with
  | nil => simp at hlen
  | cons c rest =>
    have hrlen : rest.length = 103 := by
      simp only [List.length_cons] at hlen
      omega
    have hb2 : (10 + s.currentRound) * s.players.length ≤ rest.length := by omega
    obtain ⟨pd2, st2, hrun, hlen2, hhands, _⟩ :=
      server_dealHands_spec s.players (10 + s.currentRound) s.playerData rest hnd hdata hb2
    refine ⟨{ s with playerData := pd2, stock := st2, discardPile := [c], currentPlayerIndex := if s.currentRound = 1 then 0 else (s.currentRound - 1) % s.players.length, turnState := false }, ?_, rfl, ?_, rfl, ?_⟩
    · simp only [server_dealRound, hrun]
    · intro p hp
      exact hhands p hp
    · have hsum : (s.players.map (fun p =>
          ((List.lookup p pd2).map (fun e => e.hand.length)).getD 0)).sum =
          (10 + s.currentRound) * s.players.length := by
        refine sum_map_const_on _ _ _ ?_
        intro p hp
        rw [hhands p hp]
        rfl
      rw [hsum]
      simp only [List.length_cons, List.length_nil]
      omega

/-- Witness for C7's amended theorem: the two-player round-1 deal gives A
eleven cards and a single starter card on the pile. -/
theorem dealRound_counts_spec_witness :
    ((server_dealRound stateC2init twoDecks).map (fun s2 =>
        ((List.lookup "A" s2.playerData).map (fun e => e.hand.length),
         s2.discardPile.length))) = some (some 11, 1) := by
  obtain ⟨s2, h1, _, hh, hd1, _⟩ :=
    dealRound_counts_spec stateC2init twoDecks (by decide) (by decide) rfl (by decide)
  rw [h1]
  simp only [Option.map_some']
  rw [hh "A" (by decide), hd1]
  rfl

end Shanghai
